import Mathlib

/-!
Verification of the home_media repository (findmediafiles.py, getmediainfo.py,
reorder.py) against its natural-language specification.

The development shallowly embeds the three scripts:

* `get_file_info`, `find_duplicates_and_store` model the dedup pipeline of
  src/getmediainfo.py (the spec's §4.6 Dedup Pipeline; findmediafiles.py is the
  legacy variant without the catalog checks).  A `MediaFile` record carries the
  facts the external world supplies for one path: whether opening it for
  hashing succeeds (`readable`; `false` models an IOError from `hash_file`),
  the SHA-1 hex digest of its bytes (`sha1`), the EXIF DateTimeOriginal value
  PIL would report (`exif`, `none` when the tag is missing or parsing raised),
  the container creation date hachoir would report (`vidCreation`), the
  filesystem creation time (`ctime`) and size, and the wall clock at processing
  time (`savedAt`).
* `reorgStep` / `reorgRun` model the top-level loop of src/reorder.py; the
  `move` oracle tells whether a given `shutil.move` call succeeds (an exception
  is caught by the script's `try/except`, which the total function models).

SQLite is modelled as the in-memory list of rows in insertion order (each
`insert_file_info` commits before the next file is processed, so every later
`SELECT` sees it); `id` is the position in the list.
-/

/-- A wall-clock timestamp as Python's `datetime` holds it (year ≤ 9999). -/
structure Timestamp where
  year : Nat
  month : Nat
  day : Nat
  hour : Nat
  minute : Nat
  second : Nat
deriving DecidableEq

/-- Two-digit zero-padded decimal rendering, as `datetime.isoformat` /
`strftime` produce for in-range field values. -/
def pad2c (n : Nat) : List Char :=
  [Nat.digitChar (n / 10 % 10), Nat.digitChar (n % 10)]

/-- Four-digit zero-padded decimal rendering of the year. -/
def pad4c (n : Nat) : List Char :=
  [Nat.digitChar (n / 1000 % 10), Nat.digitChar (n / 100 % 10),
   Nat.digitChar (n / 10 % 10), Nat.digitChar (n % 10)]

/-- Python's `datetime.isoformat()` for a whole-second timestamp:
`YYYY-MM-DDTHH:MM:SS`. -/
def Timestamp.isoformat (tm : Timestamp) : String :=
  String.mk (pad4c tm.year ++ ['-'] ++ pad2c tm.month ++ ['-'] ++ pad2c tm.day
    ++ ['T'] ++ pad2c tm.hour ++ [':'] ++ pad2c tm.minute ++ [':'] ++ pad2c tm.second)

/-- Python's `strftime("%Y-%m-%d %H:%M:%S")`, used by getmediainfo.py for the
video creation date (space separator, not the ISO-8601 `T`). -/
def Timestamp.strftimeDateTime (tm : Timestamp) : String :=
  String.mk (pad4c tm.year ++ ['-'] ++ pad2c tm.month ++ ['-'] ++ pad2c tm.day
    ++ [' '] ++ pad2c tm.hour ++ [':'] ++ pad2c tm.minute ++ [':'] ++ pad2c tm.second)

/-- Recognizer for the ISO-8601 date-time shape `YYYY-MM-DDTHH:MM:SS` that
`datetime.isoformat` emits. -/
def isISO8601 (s : String) : Bool :=
  match s.data with
  | [y1, y2, y3, y4, a1, mo1, mo2, a2, d1, d2, tsep,
     h1, h2, b1, mi1, mi2, b2, se1, se2] =>
    y1.isDigit && y2.isDigit && y3.isDigit && y4.isDigit && a1 == '-' &&
    mo1.isDigit && mo2.isDigit && a2 == '-' && d1.isDigit && d2.isDigit &&
    tsep == 'T' && h1.isDigit && h2.isDigit && b1 == ':' &&
    mi1.isDigit && mi2.isDigit && b2 == ':' && se1.isDigit && se2.isDigit
  | _ => false

/-- The recognized image extensions (`IMAGE_EXTENSIONS` in all three scripts). -/
def IMAGE_EXTENSIONS : List String :=
  [".jpg", ".jpeg", ".png", ".gif", ".bmp", ".tiff"]

/-- The recognized video extensions (`VIDEO_EXTENSIONS` in all three scripts). -/
def VIDEO_EXTENSIONS : List String :=
  [".mp4", ".avi", ".mov", ".mkv", ".wmv", ".flv"]

/-- The final path component, as a character list: everything after the last
path separator. -/
def baseNameChars (cs : List Char) : List Char :=
  ((cs.reverse.takeWhile (fun c => !(c == '/' || c == '\\'))).reverse)

/-- `pathlib.PurePath.suffix` on a file name: the part from the last dot on,
provided that dot is neither the first nor the last character of the name. -/
def suffixOfName (name : List Char) : List Char :=
  let rev := name.reverse
  let tail := rev.takeWhile (fun c => !(c == '.'))
  if tail.length = rev.length then []
  else if tail.length = 0 then []
  else if tail.length = rev.length - 1 then []
  else '.' :: tail.reverse

/-- `Path(filepath).suffix.lower()`: the lower-cased extension of the final
path component, dot included ("" when there is none). -/
def suffixOf (path : String) : String :=
  String.mk ((suffixOfName (baseNameChars path.data)).map Char.toLower)

/-- `Path(file_path).name`: the final path component. -/
def baseName (path : String) : String :=
  String.mk (baseNameChars path.data)

/-- The externally observable facts about one file on disk that the pipeline
consumes (see the module comment). -/
structure MediaFile where
  path : String
  readable : Bool
  sha1 : String
  exif : Option String
  vidCreation : Option Timestamp
  ctime : Timestamp
  size : Nat
  savedAt : Timestamp
deriving DecidableEq

/-- `hash_file` from getmediainfo.py: the SHA-1 hex digest of the file's
bytes; `none` models the `IOError` raised when the file cannot be
opened/read (there is no `try` around the call site). -/
def hash_file (f : MediaFile) : Option String :=
  if f.readable then some f.sha1 else none

/-- `get_file_info` from getmediainfo.py: `(size, date_taken, date_saved)`.
For an image extension, the EXIF `DateTimeOriginal` value is used verbatim
when present and non-empty (`if not date_taken` treats "" as absent); for a
video extension, the hachoir creation date is rendered with
`strftime("%Y-%m-%d %H:%M:%S")`; otherwise, and on any extraction failure,
the fallback is `datetime.fromtimestamp(os.path.getctime(...)).isoformat()`. -/
def get_file_info (f : MediaFile) : Nat × String × String :=
  let ext := suffixOf f.path
  let date_taken : Option String :=
    if IMAGE_EXTENSIONS.contains ext then
      match f.exif with
      | some v => if v = "" then none else some v
      | none => none
    else if VIDEO_EXTENSIONS.contains ext then
      match f.vidCreation with
      | some tm => some tm.strftimeDateTime
      | none => none
    else none
  let dt := match date_taken with
    | some v => v
    | none => f.ctime.isoformat
  (f.size, dt, f.savedAt.isoformat)

/-- One row of the `files` table (`id` is the position in the catalog list;
`duplicate` is the 0/1 flag as a Bool). -/
structure Row where
  hash : String
  path : String
  size : Nat
  date_taken : String
  date_saved : String
  duplicate : Bool
deriving DecidableEq

/-- The catalog query `SELECT COUNT(*) FROM files WHERE path = ?` tested
against zero. -/
def existsPath (cat : List Row) (p : String) : Bool :=
  cat.any (fun r => r.path == p)

/-- The catalog query `SELECT hash FROM files WHERE hash = ?` tested for a
returned row. -/
def findByHash (cat : List Row) (h : String) : Bool :=
  cat.any (fun r => r.hash == h)

/-- Result of one `find_duplicates_and_store` call: the catalog as committed
(`cat`), the in-memory `hashes` keys (`seen`), the paths for which
`hash_file` was invoked in order (`hashed`), and whether the loop was
aborted by an uncaught `IOError` (`aborted`). -/
structure RunResult where
  cat : List Row
  seen : List String
  hashed : List String
  aborted : Bool
deriving DecidableEq

/-- `find_duplicates_and_store` from getmediainfo.py.  Per file, in source
order: `hash_file` (an `IOError` here propagates and kills the whole loop —
modelled by stopping with `aborted := true`), `get_file_info`, the
path-exists skip, the catalog hash lookup, the in-run `hashes` lookup, and
the insert with the resulting duplicate flag. -/
def find_duplicates_and_store :
    List Row → List String → List MediaFile → RunResult
  | cat, seen, [] => { cat := cat, seen := seen, hashed := [], aborted := false }
  | cat, seen, f :: fs =>
    match hash_file f with
    | none => { cat := cat, seen := seen, hashed := [f.path], aborted := true }
    | some file_hash =>
      let info := get_file_info f
      if existsPath cat f.path then
        let r := find_duplicates_and_store cat seen fs
        { r with hashed := f.path :: r.hashed }
      else if findByHash cat file_hash then
        let r := find_duplicates_and_store
          (cat ++ [{ hash := file_hash, path := f.path, size := info.1,
                     date_taken := info.2.1, date_saved := info.2.2,
                     duplicate := true }]) seen fs
        { r with hashed := f.path :: r.hashed }
      else if file_hash ∈ seen then
        let r := find_duplicates_and_store
          (cat ++ [{ hash := file_hash, path := f.path, size := info.1,
                     date_taken := info.2.1, date_saved := info.2.2,
                     duplicate := true }]) seen fs
        { r with hashed := f.path :: r.hashed }
      else
        let r := find_duplicates_and_store
          (cat ++ [{ hash := file_hash, path := f.path, size := info.1,
                     date_taken := info.2.1, date_saved := info.2.2,
                     duplicate := false }]) (seen ++ [file_hash]) fs
        { r with hashed := f.path :: r.hashed }

/-- One pipeline invocation as the script performs it: the in-run `hashes`
dict starts empty. -/
def runPipeline (cat : List Row) (files : List MediaFile) : RunResult :=
  find_duplicates_and_store cat [] files

/-- Modelled from the spec (§4.6 discussion and the refinement claim): the
same per-file processing but with the in-run seen-set dropped, the duplicate
flag decided by the catalog hash lookup alone. -/
def catalogOnlyStore : List Row → List MediaFile → List Row
  | cat, [] => cat
  | cat, f :: fs =>
    match hash_file f with
    | none => cat
    | some file_hash =>
      let info := get_file_info f
      if existsPath cat f.path then catalogOnlyStore cat fs
      else if findByHash cat file_hash then
        catalogOnlyStore
          (cat ++ [{ hash := file_hash, path := f.path, size := info.1,
                     date_taken := info.2.1, date_saved := info.2.2,
                     duplicate := true }]) fs
      else
        catalogOnlyStore
          (cat ++ [{ hash := file_hash, path := f.path, size := info.1,
                     date_taken := info.2.1, date_saved := info.2.2,
                     duplicate := false }]) fs

/-- `BASE_PHOTO_DIR` from reorder.py (`os.path.join(BASE_LOCATION, 'photos')`;
backslash separators rendered as text). -/
def BASE_PHOTO_DIR : String := "H:\\My Media\\photos"

/-- `BASE_VIDEO_DIR` from reorder.py. -/
def BASE_VIDEO_DIR : String := "H:\\My Media\\videos"

/-- `os.path.join` of a directory and one further component. -/
def joinPath (dir comp : String) : String := dir ++ "\\" ++ comp

/-- The base-directory choice of reorder.py: photos for an image extension,
videos for a video extension, `none` (skip with a warning) otherwise. -/
def base_dir_for (path : String) : Option String :=
  let ext := suffixOf path
  if IMAGE_EXTENSIONS.contains ext then some BASE_PHOTO_DIR
  else if VIDEO_EXTENSIONS.contains ext then some BASE_VIDEO_DIR
  else none

/-- The destination reorder.py computes for a row once a base directory is
chosen: `<base>/<year>/<basename>` where `year` is `date_taken[:4]`. -/
def destPath (base : String) (r : Row) : String :=
  joinPath (joinPath base (r.date_taken.take 4)) (baseName r.path)

/-- State of the reorder.py loop: the `moved_files` hash-to-destination map,
plus instrumentation recording every `shutil.move` call
(`movesAttempted`) and every successful one (`movesDone`), each entry as
(hash, source, destination). -/
structure ReorgState where
  moved_files : List (String × String)
  movesAttempted : List (String × String × String)
  movesDone : List (String × String × String)
deriving DecidableEq

/-- The state reorder.py starts with: `moved_files = {}`. -/
def initialReorgState : ReorgState :=
  { moved_files := [], movesAttempted := [], movesDone := [] }

/-- The body of the reorder.py loop for one catalog row.  `move src dest`
tells whether the `shutil.move` call succeeds; on an exception the script
logs and `continue`s, recording nothing in `moved_files`. -/
def reorgStep (move : String → String → Bool) (st : ReorgState) (r : Row) :
    ReorgState :=
  if st.moved_files.any (fun p => p.1 == r.hash) then st
  else
    match base_dir_for r.path with
    | none => st
    | some base =>
      if move r.path (destPath base r) then
        { st with
          movesAttempted := st.movesAttempted ++ [(r.hash, r.path, destPath base r)],
          movesDone := st.movesDone ++ [(r.hash, r.path, destPath base r)],
          moved_files := st.moved_files ++ [(r.hash, destPath base r)] }
      else
        { st with
          movesAttempted := st.movesAttempted ++ [(r.hash, r.path, destPath base r)] }

/-- The whole reorder.py loop over the fetched catalog rows in order. -/
def reorgRun (move : String → String → Bool) (records : List Row)
    (st : ReorgState) : ReorgState :=
  records.foldl (reorgStep move) st

/-- The catalog duplicate-flag invariant: whenever two rows share a content
hash, the later-inserted one carries `duplicate = true`; equivalently, at
most one row per hash has `duplicate = false` and it is the
earliest-inserted one. -/
def dedupInvariant (cat : List Row) : Prop :=
  List.Pairwise (fun a b => a.hash = b.hash → b.duplicate = true) cat

/-- Invariant of the reorder loop state: the hashes of successfully moved
files are pairwise distinct, and every one of them is present in the
`moved_files` map. -/
def reorgInv (st : ReorgState) : Prop :=
  (st.movesDone.map (fun e => e.1)).Nodup ∧
  ∀ e ∈ st.movesDone, st.moved_files.any (fun p => p.1 == e.1) = true

/-- A catalog row carried over from an earlier scan. -/
def demoOldRow : Row :=
  { hash := "h1", path := "H:\\old\\x.jpg", size := 10,
    date_taken := "2019-01-01T00:00:00", date_saved := "2019-01-02T00:00:00",
    duplicate := false }

/-- A one-row starting catalog. -/
def demoCat : List Row := [demoOldRow]

/-- A readable image file whose content duplicates the cataloged row. -/
def fileA : MediaFile :=
  { path := "H:\\My Media\\a.jpg", readable := true, sha1 := "h1",
    exif := none, vidCreation := none, ctime := ⟨2020, 6, 1, 10, 0, 0⟩,
    size := 100, savedAt := ⟨2024, 3, 3, 3, 3, 3⟩ }

/-- A readable image file with fresh content. -/
def fileB : MediaFile :=
  { path := "H:\\My Media\\b.jpg", readable := true, sha1 := "h2",
    exif := none, vidCreation := none, ctime := ⟨2020, 6, 2, 10, 0, 0⟩,
    size := 200, savedAt := ⟨2024, 3, 3, 3, 3, 4⟩ }

/-- A readable image file duplicating fileB within the same run. -/
def fileC : MediaFile :=
  { path := "H:\\My Media\\c.jpg", readable := true, sha1 := "h2",
    exif := none, vidCreation := none, ctime := ⟨2020, 6, 3, 10, 0, 0⟩,
    size := 200, savedAt := ⟨2024, 3, 3, 3, 3, 5⟩ }

/-- A scan batch with one cross-run duplicate and one in-run duplicate. -/
def demoFiles : List MediaFile := [fileA, fileB, fileC]

/-- An unreadable file: opening it for hashing raises `IOError`. -/
def badFile : MediaFile :=
  { path := "H:\\My Media\\broken.jpg", readable := false, sha1 := "hbad",
    exif := none, vidCreation := none, ctime := ⟨2020, 1, 1, 0, 0, 0⟩,
    size := 5, savedAt := ⟨2024, 1, 1, 0, 0, 0⟩ }

/-- A readable, fresh file listed after the unreadable one. -/
def goodFile : MediaFile :=
  { path := "H:\\My Media\\ok.jpg", readable := true, sha1 := "hok",
    exif := none, vidCreation := none, ctime := ⟨2021, 1, 1, 0, 0, 0⟩,
    size := 6, savedAt := ⟨2024, 1, 1, 0, 0, 0⟩ }

/-- A readable file whose path is already cataloged in `demoCat`
(same path as `demoOldRow`). -/
def fileOld : MediaFile :=
  { path := "H:\\old\\x.jpg", readable := true, sha1 := "h1",
    exif := none, vidCreation := none, ctime := ⟨2019, 5, 5, 5, 5, 5⟩,
    size := 10, savedAt := ⟨2024, 2, 2, 2, 2, 2⟩ }

/-- An image file carrying an EXIF DateTimeOriginal tag in the standard EXIF
colon-separated format. -/
def exifFile : MediaFile :=
  { path := "H:\\My Media\\pic.jpg", readable := true, sha1 := "hexif",
    exif := some "2020:06:01 12:00:00", vidCreation := none,
    ctime := ⟨2020, 6, 1, 12, 0, 0⟩, size := 123,
    savedAt := ⟨2024, 1, 2, 3, 4, 5⟩ }

/-- A move oracle under which every `shutil.move` succeeds. -/
def demoMove : String → String → Bool := fun _ _ => true

/-- A move oracle under which every `shutil.move` raises. -/
def demoFailMove : String → String → Bool := fun _ _ => false

/-- A catalog row for the reorganizer demos (image extension). -/
def demoRow2 : Row :=
  { hash := "h9", path := "H:\\src\\y.jpg", size := 5,
    date_taken := "2021-03-04T05:06:07", date_saved := "2024-01-01T00:00:00",
    duplicate := false }

/-- Catalog rows fetched by the reorganizer demo run. -/
def demoRecs : List Row := [demoOldRow, demoRow2, demoRow2]

/-- A reorganizer state whose map already contains hash "h1". -/
def demoMovedSt : ReorgState :=
  { moved_files := [("h1", "H:\\My Media\\photos\\2019\\x.jpg")],
    movesAttempted := [], movesDone := [] }

theorem digitChar_isDigit_of_lt (d : Nat) (h : d < 10) :
    (Nat.digitChar d).isDigit = true := by
  interval_cases d <;> decide

theorem digitChar_mod_isDigit (n : Nat) :
    (Nat.digitChar (n % 10)).isDigit = true :=
  digitChar_isDigit_of_lt _ (Nat.mod_lt _ (by decide))

theorem isISO8601_isoformat (tm : Timestamp) :
    isISO8601 tm.isoformat = true := by
  simp [Timestamp.isoformat, isISO8601, pad4c, pad2c, digitChar_mod_isDigit]

/-- C7 counterexample: the catalog row written for `exifFile` stores the EXIF
DateTimeOriginal value verbatim, and that value is not an ISO-8601 string,
refuting the claim that every stored dateTaken is ISO-8601. -/
theorem exif_date_taken_not_iso :
    (runPipeline [] [exifFile]).cat.map Row.date_taken = ["2020:06:01 12:00:00"] ∧
    isISO8601 "2020:06:01 12:00:00" = false := by
  exact ⟨rfl, rfl⟩

/-- C7 (amended): when a file carries no embedded capture metadata (no EXIF
DateTimeOriginal, no video creation date — covering missing tag, parse
failure, and unsupported kind alike), the stored dateTaken equals the
filesystem creation timestamp rendered by `datetime.isoformat`, which is an
ISO-8601 string.  (Embedded EXIF values, by contrast, are stored verbatim.) -/
theorem fallback_date_taken_iso (f : MediaFile)
    (h1 : f.exif = none) (h2 : f.vidCreation = none) :
    (get_file_info f).2.1 = f.ctime.isoformat ∧
    isISO8601 (get_file_info f).2.1 = true := by
  have hd : (get_file_info f).2.1 = f.ctime.isoformat := by
    simp [get_file_info, h1, h2]
  exact ⟨hd, by rw [hd]; exact isISO8601_isoformat f.ctime⟩

/-- Witness for the amended C7 theorem at a concrete metadata-free file. -/
theorem fallback_date_taken_iso_witness :
    (get_file_info goodFile).2.1 = goodFile.ctime.isoformat ∧
    isISO8601 (get_file_info goodFile).2.1 = true :=
  fallback_date_taken_iso goodFile rfl rfl

/-- C5 (divergence witness): `hash_file` is called with no surrounding
`try/except`, so an `IOError` on the first file aborts the whole
`find_duplicates_and_store` loop: the readable fresh file listed after it is
never cataloged, contradicting the skip-and-continue claim. -/
theorem io_error_aborts_run :
    goodFile.readable = true ∧
    (runPipeline [] [badFile, goodFile]).aborted = true ∧
    (runPipeline [] [badFile, goodFile]).cat = [] := by
  exact ⟨rfl, rfl, rfl⟩

/-- C6 counterexample: for a file whose path is already cataloged,
`hash_file` is still invoked (the path appears in the fingerprint trace),
refuting the claim that no content hash is computed for an
already-cataloged path. -/
theorem hash_computed_for_existing_path :
    existsPath demoCat fileOld.path = true ∧
    (runPipeline demoCat [fileOld]).hashed = [fileOld.path] := by
  exact ⟨rfl, rfl⟩

/-- C6 (amended): for a readable file whose path is already cataloged, the
pipeline inserts nothing — but only after fingerprinting: `hash_file` and
`get_file_info` run before the path-exists check, so the skip prevents
insertion, not hash computation. -/
theorem existing_path_skip_after_fingerprint (cat : List Row)
    (seen : List String) (f : MediaFile)
    (hr : f.readable = true) (hex : existsPath cat f.path = true) :
    (find_duplicates_and_store cat seen [f]).cat = cat ∧
    (find_duplicates_and_store cat seen [f]).hashed = [f.path] := by
  simp [find_duplicates_and_store, hash_file, hr, hex]

/-- Witness for the amended C6 theorem at a concrete cataloged path. -/
theorem existing_path_skip_after_fingerprint_witness :
    (find_duplicates_and_store demoCat [] [fileOld]).cat = demoCat ∧
    (find_duplicates_and_store demoCat [] [fileOld]).hashed = [fileOld.path] :=
  existing_path_skip_after_fingerprint demoCat [] fileOld rfl rfl

/-- C4: when the pipeline inserts a row for a readable file whose path is not
yet cataloged, the duplicate flag is true exactly when the catalog already
holds the content hash or the hash is in this run's seen-set; when it is
false, and only then, the hash is appended to the seen-set. -/
theorem dedup_flag_rule (cat : List Row) (seen : List String) (f : MediaFile)
    (hr : f.readable = true) (hnew : existsPath cat f.path = false) :
    (find_duplicates_and_store cat seen [f]).cat =
      cat ++ [{ hash := f.sha1, path := f.path, size := (get_file_info f).1,
                date_taken := (get_file_info f).2.1,
                date_saved := (get_file_info f).2.2,
                duplicate := (findByHash cat f.sha1 || decide (f.sha1 ∈ seen)) }] ∧
    (find_duplicates_and_store cat seen [f]).seen =
      (if (findByHash cat f.sha1 || decide (f.sha1 ∈ seen)) = true then seen
       else seen ++ [f.sha1]) := by
  by_cases hdb : findByHash cat f.sha1 = true
  · simp [find_duplicates_and_store, hash_file, hr, hnew, hdb]
  · by_cases hseen : f.sha1 ∈ seen
    · simp [find_duplicates_and_store, hash_file, hr, hnew, hdb, hseen]
    · simp [find_duplicates_and_store, hash_file, hr, hnew, hdb, hseen]

/-- Witness for the C4 flag rule: fileC duplicates a hash already in the
seen-set, at a catalog not containing its path. -/
theorem dedup_flag_rule_witness :
    (find_duplicates_and_store demoCat ["h2"] [fileC]).cat =
      demoCat ++ [{ hash := fileC.sha1, path := fileC.path,
                    size := (get_file_info fileC).1,
                    date_taken := (get_file_info fileC).2.1,
                    date_saved := (get_file_info fileC).2.2,
                    duplicate := (findByHash demoCat fileC.sha1 ||
                      decide (fileC.sha1 ∈ ["h2"])) }] ∧
    (find_duplicates_and_store demoCat ["h2"] [fileC]).seen =
      (if (findByHash demoCat fileC.sha1 || decide (fileC.sha1 ∈ ["h2"])) = true
       then ["h2"] else ["h2"] ++ [fileC.sha1]) :=
  dedup_flag_rule demoCat ["h2"] fileC rfl rfl

theorem findByHash_eq_false_iff (cat : List Row) (h : String) :
    findByHash cat h = false ↔ ∀ r ∈ cat, r.hash ≠ h := by
  simp [findByHash]

theorem dedupInvariant_append (cat : List Row) (r : Row)
    (hcond : r.duplicate = true ∨ findByHash cat r.hash = false)
    (h : dedupInvariant cat) : dedupInvariant (cat ++ [r]) := by
  rw [dedupInvariant, List.pairwise_append]
  refine ⟨h, List.pairwise_singleton _ _, ?_⟩
  intro a ha b hb heq
  have hb2 : b = r := by simpa using hb
  rcases hcond with hdup | hno
  · rw [hb2]; exact hdup
  · rw [hb2] at heq
    exact absurd heq ((findByHash_eq_false_iff cat r.hash).mp hno a ha)

theorem fdas_preserves_dedupInvariant (fs : List MediaFile) :
    ∀ cat seen, dedupInvariant cat →
      dedupInvariant (find_duplicates_and_store cat seen fs).cat := by
  induction fs with
  | nil => intro cat seen h; exact h
  | cons f fs ih =>
    intro cat seen h
    by_cases hr : f.readable = true
    · by_cases hex : existsPath cat f.path = true
      · simpa [find_duplicates_and_store, hash_file, hr, hex] using ih cat seen h
      · by_cases hdb : findByHash cat f.sha1 = true
        · simpa [find_duplicates_and_store, hash_file, hr, hex, hdb] using
            ih _ seen (dedupInvariant_append cat _ (Or.inl rfl) h)
        · by_cases hseen : f.sha1 ∈ seen
          · simpa [find_duplicates_and_store, hash_file, hr, hex, hdb, hseen] using
              ih _ seen (dedupInvariant_append cat _ (Or.inl rfl) h)
          · have hdb2 : findByHash cat f.sha1 = false := by
              simpa using hdb
            simpa [find_duplicates_and_store, hash_file, hr, hex, hdb, hseen] using
              ih _ (seen ++ [f.sha1]) (dedupInvariant_append cat _ (Or.inr hdb2) h)
    · simpa [find_duplicates_and_store, hash_file, hr] using h

/-- C1: processing any batch of files preserves the catalog duplicate-flag
invariant — among all rows sharing one content hash, at most one has
`duplicate = false` and it is the earliest-inserted (every row with an
earlier same-hash row is flagged true). -/
theorem dedup_invariant_preserved (cat : List Row) (files : List MediaFile)
    (h : dedupInvariant cat) : dedupInvariant (runPipeline cat files).cat :=
  fdas_preserves_dedupInvariant files cat [] h

/-- Witness for C1 at a concrete catalog and batch containing a cross-run
duplicate and an in-run duplicate. -/
theorem dedup_invariant_preserved_witness :
    dedupInvariant (runPipeline demoCat demoFiles).cat :=
  dedup_invariant_preserved demoCat demoFiles (by unfold dedupInvariant; decide)

theorem existsPath_append (cat t : List Row) (p : String)
    (h : existsPath cat p = true) : existsPath (cat ++ t) p = true := by
  simp only [existsPath, List.any_append, Bool.or_eq_true]
  exact Or.inl h

theorem findByHash_append (cat t : List Row) (h : String)
    (hh : findByHash cat h = true) : findByHash (cat ++ t) h = true := by
  simp only [findByHash, List.any_append, Bool.or_eq_true]
  exact Or.inl hh

theorem fdas_cat_extends (fs : List MediaFile) :
    ∀ cat seen, ∃ t, (find_duplicates_and_store cat seen fs).cat = cat ++ t := by
  induction fs with
  | nil =>
    intro cat seen
    exact ⟨[], by simp [find_duplicates_and_store]⟩
  | cons f fs ih =>
    intro cat seen
    by_cases hr : f.readable = true
    · by_cases hex : existsPath cat f.path = true
      · obtain ⟨t, ht⟩ := ih cat seen
        exact ⟨t, by simp [find_duplicates_and_store, hash_file, hr, hex, ht]⟩
      · by_cases hdb : findByHash cat f.sha1 = true
        · obtain ⟨t, ht⟩ := ih (cat ++
            [{ hash := f.sha1, path := f.path, size := (get_file_info f).1,
               date_taken := (get_file_info f).2.1,
               date_saved := (get_file_info f).2.2, duplicate := true }]) seen
          refine ⟨{ hash := f.sha1, path := f.path, size := (get_file_info f).1,
                    date_taken := (get_file_info f).2.1,
                    date_saved := (get_file_info f).2.2,
                    duplicate := true } :: t, ?_⟩
          simp [find_duplicates_and_store, hash_file, hr, hex, hdb, ht]
        · by_cases hseen : f.sha1 ∈ seen
          · obtain ⟨t, ht⟩ := ih (cat ++
              [{ hash := f.sha1, path := f.path, size := (get_file_info f).1,
                 date_taken := (get_file_info f).2.1,
                 date_saved := (get_file_info f).2.2, duplicate := true }]) seen
            refine ⟨{ hash := f.sha1, path := f.path, size := (get_file_info f).1,
                      date_taken := (get_file_info f).2.1,
                      date_saved := (get_file_info f).2.2,
                      duplicate := true } :: t, ?_⟩
            simp [find_duplicates_and_store, hash_file, hr, hex, hdb, hseen, ht]
          · obtain ⟨t, ht⟩ := ih (cat ++
              [{ hash := f.sha1, path := f.path, size := (get_file_info f).1,
                 date_taken := (get_file_info f).2.1,
                 date_saved := (get_file_info f).2.2, duplicate := false }])
              (seen ++ [f.sha1])
            refine ⟨{ hash := f.sha1, path := f.path, size := (get_file_info f).1,
                      date_taken := (get_file_info f).2.1,
                      date_saved := (get_file_info f).2.2,
                      duplicate := false } :: t, ?_⟩
            simp [find_duplicates_and_store, hash_file, hr, hex, hdb, hseen, ht]
    · exact ⟨[], by simp [find_duplicates_and_store, hash_file, hr]⟩

theorem fdas_idempotent (fs : List MediaFile) :
    ∀ cat seen seen2,
      (find_duplicates_and_store
          (find_duplicates_and_store cat seen fs).cat seen2 fs).cat
        = (find_duplicates_and_store cat seen fs).cat := by
  induction fs with
  | nil => intro cat seen seen2; simp [find_duplicates_and_store]
  | cons f fs ih =>
    intro cat seen seen2
    by_cases hr : f.readable = true
    · by_cases hex : existsPath cat f.path = true
      · obtain ⟨t, ht⟩ := fdas_cat_extends fs cat seen
        have hex2 : existsPath (find_duplicates_and_store cat seen fs).cat
            f.path = true := by
          rw [ht]; exact existsPath_append _ _ _ hex
        simp [find_duplicates_and_store, hash_file, hr, hex, hex2,
          ih cat seen seen2]
      · by_cases hdb : findByHash cat f.sha1 = true
        · have hpx : existsPath (cat ++
              [{ hash := f.sha1, path := f.path, size := (get_file_info f).1,
                 date_taken := (get_file_info f).2.1,
                 date_saved := (get_file_info f).2.2,
                 duplicate := true }]) f.path = true := by
            simp [existsPath]
          obtain ⟨t, ht⟩ := fdas_cat_extends fs (cat ++
            [{ hash := f.sha1, path := f.path, size := (get_file_info f).1,
               date_taken := (get_file_info f).2.1,
               date_saved := (get_file_info f).2.2, duplicate := true }]) seen
          have hex2 : existsPath (find_duplicates_and_store (cat ++
              [{ hash := f.sha1, path := f.path, size := (get_file_info f).1,
                 date_taken := (get_file_info f).2.1,
                 date_saved := (get_file_info f).2.2,
                 duplicate := true }]) seen fs).cat f.path = true := by
            rw [ht]; exact existsPath_append _ _ _ hpx
          simp [find_duplicates_and_store, hash_file, hr, hex, hdb, hex2,
            ih _ seen seen2]
        · by_cases hseen : f.sha1 ∈ seen
          · have hpx : existsPath (cat ++
                [{ hash := f.sha1, path := f.path, size := (get_file_info f).1,
                   date_taken := (get_file_info f).2.1,
                   date_saved := (get_file_info f).2.2,
                   duplicate := true }]) f.path = true := by
              simp [existsPath]
            obtain ⟨t, ht⟩ := fdas_cat_extends fs (cat ++
              [{ hash := f.sha1, path := f.path, size := (get_file_info f).1,
                 date_taken := (get_file_info f).2.1,
                 date_saved := (get_file_info f).2.2, duplicate := true }]) seen
            have hex2 : existsPath (find_duplicates_and_store (cat ++
                [{ hash := f.sha1, path := f.path, size := (get_file_info f).1,
                   date_taken := (get_file_info f).2.1,
                   date_saved := (get_file_info f).2.2,
                   duplicate := true }]) seen fs).cat f.path = true := by
              rw [ht]; exact existsPath_append _ _ _ hpx
            simp [find_duplicates_and_store, hash_file, hr, hex, hdb, hseen,
              hex2, ih _ seen seen2]
          · have hpx : existsPath (cat ++
                [{ hash := f.sha1, path := f.path, size := (get_file_info f).1,
                   date_taken := (get_file_info f).2.1,
                   date_saved := (get_file_info f).2.2,
                   duplicate := false }]) f.path = true := by
              simp [existsPath]
            obtain ⟨t, ht⟩ := fdas_cat_extends fs (cat ++
              [{ hash := f.sha1, path := f.path, size := (get_file_info f).1,
                 date_taken := (get_file_info f).2.1,
                 date_saved := (get_file_info f).2.2, duplicate := false }])
              (seen ++ [f.sha1])
            have hex2 : existsPath (find_duplicates_and_store (cat ++
                [{ hash := f.sha1, path := f.path, size := (get_file_info f).1,
                   date_taken := (get_file_info f).2.1,
                   date_saved := (get_file_info f).2.2,
                   duplicate := false }]) (seen ++ [f.sha1]) fs).cat
                f.path = true := by
              rw [ht]; exact existsPath_append _ _ _ hpx
            simp [find_duplicates_and_store, hash_file, hr, hex, hdb, hseen,
              hex2, ih _ (seen ++ [f.sha1]) seen2]
    · simp [find_duplicates_and_store, hash_file, hr]

theorem fdas_preserves_nodup_paths (fs : List MediaFile) :
    ∀ cat seen, (cat.map Row.path).Nodup →
      ((find_duplicates_and_store cat seen fs).cat.map Row.path).Nodup := by
  induction fs with
  | nil => intro cat seen h; exact h
  | cons f fs ih =>
    intro cat seen h
    by_cases hr : f.readable = true
    · by_cases hex : existsPath cat f.path = true
      · simpa [find_duplicates_and_store, hash_file, hr, hex] using ih cat seen h
      · have hnp : f.path ∉ cat.map Row.path := by
          intro hmem
          obtain ⟨r, hrmem, hrp⟩ := List.mem_map.mp hmem
          have : existsPath cat f.path = true := by
            simp only [existsPath, List.any_eq_true]
            exact ⟨r, hrmem, by simp [hrp]⟩
          exact hex this
        have h2 : ∀ b : Bool, ((cat ++
            [({ hash := f.sha1, path := f.path, size := (get_file_info f).1,
                date_taken := (get_file_info f).2.1,
                date_saved := (get_file_info f).2.2,
                duplicate := b } : Row)]).map Row.path).Nodup := by
          intro b
          simp only [List.map_append, List.map_cons, List.map_nil]
          simp [List.nodup_append, h, hnp]
        by_cases hdb : findByHash cat f.sha1 = true
        · simpa [find_duplicates_and_store, hash_file, hr, hex, hdb] using
            ih _ seen (h2 true)
        · by_cases hseen : f.sha1 ∈ seen
          · simpa [find_duplicates_and_store, hash_file, hr, hex, hdb, hseen]
              using ih _ seen (h2 true)
          · simpa [find_duplicates_and_store, hash_file, hr, hex, hdb, hseen]
              using ih _ (seen ++ [f.sha1]) (h2 false)
    · simpa [find_duplicates_and_store, hash_file, hr] using h

/-- C3: re-running the pipeline over the unchanged file list inserts no new
rows — the second run returns the catalog exactly as the first run left it
(every path is skipped by the path-exists check) — and path uniqueness is
preserved: if the starting catalog has pairwise-distinct paths, so does the
resulting catalog. -/
theorem rescan_inserts_no_rows (cat : List Row) (files : List MediaFile)
    (h : (cat.map Row.path).Nodup) :
    (runPipeline (runPipeline cat files).cat files).cat
      = (runPipeline cat files).cat ∧
    ((runPipeline cat files).cat.map Row.path).Nodup :=
  ⟨fdas_idempotent files cat [] [], fdas_preserves_nodup_paths files cat [] h⟩

/-- Witness for C3 at the concrete catalog and batch. -/
theorem rescan_inserts_no_rows_witness :
    (runPipeline (runPipeline demoCat demoFiles).cat demoFiles).cat
      = (runPipeline demoCat demoFiles).cat ∧
    ((runPipeline demoCat demoFiles).cat.map Row.path).Nodup :=
  rescan_inserts_no_rows demoCat demoFiles (by decide)

theorem fdas_eq_catalogOnly_aux (fs : List MediaFile) :
    ∀ cat seen, (∀ h ∈ seen, findByHash cat h = true) →
      (find_duplicates_and_store cat seen fs).cat = catalogOnlyStore cat fs := by
  induction fs with
  | nil => intro cat seen _; simp [find_duplicates_and_store, catalogOnlyStore]
  | cons f fs ih =>
    intro cat seen hinv
    by_cases hr : f.readable = true
    · by_cases hex : existsPath cat f.path = true
      · simpa [find_duplicates_and_store, catalogOnlyStore, hash_file, hr, hex]
          using ih cat seen hinv
      · by_cases hdb : findByHash cat f.sha1 = true
        · have hinv2 : ∀ h ∈ seen, findByHash (cat ++
              [({ hash := f.sha1, path := f.path, size := (get_file_info f).1,
                  date_taken := (get_file_info f).2.1,
                  date_saved := (get_file_info f).2.2,
                  duplicate := true } : Row)]) h = true :=
            fun h hmem => findByHash_append _ _ _ (hinv h hmem)
          simpa [find_duplicates_and_store, catalogOnlyStore, hash_file, hr,
            hex, hdb] using ih _ seen hinv2
        · have hseen : f.sha1 ∉ seen := by
            intro hmem
            exact hdb (hinv _ hmem)
          have hinv2 : ∀ h ∈ seen ++ [f.sha1], findByHash (cat ++
              [({ hash := f.sha1, path := f.path, size := (get_file_info f).1,
                  date_taken := (get_file_info f).2.1,
                  date_saved := (get_file_info f).2.2,
                  duplicate := false } : Row)]) h = true := by
            intro h hmem
            rcases List.mem_append.mp hmem with hold | hnew
            · exact findByHash_append _ _ _ (hinv h hold)
            · have hh : h = f.sha1 := by simpa using hnew
              subst hh
              simp [findByHash]
          simpa [find_duplicates_and_store, catalogOnlyStore, hash_file, hr,
            hex, hdb, hseen] using ih _ (seen ++ [f.sha1]) hinv2
    · simp [find_duplicates_and_store, catalogOnlyStore, hash_file, hr]

/-- C9: because every insert is committed before the next file is processed,
every hash in the in-run seen-set is already visible to the catalog hash
query, so the two-tier duplicate check and the catalog-only check produce
identical catalogs for every starting catalog and file list. -/
theorem two_tier_eq_catalog_only (cat : List Row) (files : List MediaFile) :
    (runPipeline cat files).cat = catalogOnlyStore cat files :=
  fdas_eq_catalogOnly_aux files cat [] (by intro h hmem; cases hmem)

theorem reorgStep_of_mem_map (move : String → String → Bool)
    (st : ReorgState) (r : Row)
    (hmem : st.moved_files.any (fun p => p.1 == r.hash) = true) :
    reorgStep move st r = st := by
  simp [reorgStep, hmem]

theorem reorgStep_of_unrecognized (move : String → String → Bool)
    (st : ReorgState) (r : Row) (hbase : base_dir_for r.path = none) :
    reorgStep move st r = st := by
  by_cases hmem : st.moved_files.any (fun p => p.1 == r.hash) = true
  · exact reorgStep_of_mem_map move st r hmem
  · rw [reorgStep, if_neg hmem, hbase]

theorem reorgStep_eq_success (move : String → String → Bool)
    (st : ReorgState) (r : Row) (base : String)
    (hmem : st.moved_files.any (fun p => p.1 == r.hash) = false)
    (hbase : base_dir_for r.path = some base)
    (hmv : move r.path (destPath base r) = true) :
    reorgStep move st r =
      { st with
        movesAttempted := st.movesAttempted ++ [(r.hash, r.path, destPath base r)],
        movesDone := st.movesDone ++ [(r.hash, r.path, destPath base r)],
        moved_files := st.moved_files ++ [(r.hash, destPath base r)] } := by
  rw [reorgStep, if_neg (by simp [hmem]), hbase]
  simp [hmv]

theorem reorgStep_eq_fail (move : String → String → Bool)
    (st : ReorgState) (r : Row) (base : String)
    (hmem : st.moved_files.any (fun p => p.1 == r.hash) = false)
    (hbase : base_dir_for r.path = some base)
    (hmv : move r.path (destPath base r) = false) :
    reorgStep move st r =
      { st with
        movesAttempted := st.movesAttempted ++ [(r.hash, r.path, destPath base r)] } := by
  rw [reorgStep, if_neg (by simp [hmem]), hbase]
  simp [hmv]

theorem reorgStep_preserves_inv (move : String → String → Bool)
    (st : ReorgState) (r : Row) (h : reorgInv st) :
    reorgInv (reorgStep move st r) := by
  by_cases hmem : st.moved_files.any (fun p => p.1 == r.hash) = true
  · rw [reorgStep_of_mem_map move st r hmem]; exact h
  · have hmem2 : st.moved_files.any (fun p => p.1 == r.hash) = false := by
      cases hb : st.moved_files.any (fun p => p.1 == r.hash) with
      | false => rfl
      | true => exact absurd hb hmem
    cases hbase : base_dir_for r.path with
    | none => rw [reorgStep_of_unrecognized move st r hbase]; exact h
    | some base =>
      by_cases hmv : move r.path (destPath base r) = true
      · rw [reorgStep_eq_success move st r base hmem2 hbase hmv]
        constructor
        · simp only [List.map_append, List.map_cons, List.map_nil]
          rw [List.nodup_append]
          refine ⟨h.1, List.nodup_singleton _, ?_⟩
          intro x hx hx2
          have hx3 : x = r.hash := by simpa using hx2
          subst hx3
          obtain ⟨e, he, he2⟩ := List.mem_map.mp hx
          have := h.2 e he
          rw [he2] at this
          exact hmem this
        · intro e he
          rcases List.mem_append.mp he with hold | hnew
          · have := h.2 e hold
            simp only [List.any_append, Bool.or_eq_true]
            exact Or.inl this
          · have he2 : e = (r.hash, r.path, destPath base r) := by
              simpa using hnew
            subst he2
            simp
      · have hmv2 : move r.path (destPath base r) = false := by simpa using hmv
        rw [reorgStep_eq_fail move st r base hmem2 hbase hmv2]
        exact h

theorem reorgRun_preserves_inv (move : String → String → Bool)
    (records : List Row) :
    ∀ st, reorgInv st → reorgInv (reorgRun move records st) := by
  induction records with
  | nil => intro st h; exact h
  | cons r rs ih =>
    intro st h
    exact ih (reorgStep move st r) (reorgStep_preserves_inv move st r h)

/-- C2: one reorganizer run succeeds in moving at most one file per distinct
content hash — the hashes of the successful moves are pairwise distinct —
and once a hash is in the relocated-map, an entry with that hash is skipped
with no state change, in particular with no move attempt. -/
theorem reorg_at_most_one_move_per_hash (move : String → String → Bool)
    (records : List Row) :
    (((reorgRun move records initialReorgState).movesDone.map
        (fun e => e.1)).Nodup) ∧
    (∀ st r, st.moved_files.any (fun p => p.1 == r.hash) = true →
      reorgStep move st r = st) := by
  constructor
  · have h0 : reorgInv initialReorgState := by
      constructor
      · simp [initialReorgState]
      · intro e he
        simp [initialReorgState] at he
    exact (reorgRun_preserves_inv move records initialReorgState h0).1
  · exact reorgStep_of_mem_map move

/-- Witness for C2 at a concrete record list (containing a repeated hash)
and at a concrete state whose map already holds the entry's hash. -/
theorem reorg_at_most_one_move_per_hash_witness :
    (((reorgRun demoMove demoRecs initialReorgState).movesDone.map
        (fun e => e.1)).Nodup) ∧
    reorgStep demoMove demoMovedSt demoOldRow = demoMovedSt :=
  ⟨(reorg_at_most_one_move_per_hash demoMove demoRecs).1,
   (reorg_at_most_one_move_per_hash demoMove demoRecs).2 demoMovedSt demoOldRow
     (by decide)⟩

/-- C8: when the move of an entry fails (the oracle reports the
`shutil.move` raised, for whichever base directory applies), the run simply
continues with the remaining entries from the post-entry state — the
`try/except` makes the loop total — and the entry's hash is not recorded in
the relocated-map, leaving it available for a later retry. -/
theorem move_failure_skips_entry (move : String → String → Bool)
    (st : ReorgState) (r : Row) (rs : List Row)
    (hfail : ∀ base, base_dir_for r.path = some base →
      move r.path (destPath base r) = false) :
    reorgRun move (r :: rs) st = reorgRun move rs (reorgStep move st r) ∧
    (reorgStep move st r).moved_files = st.moved_files := by
  constructor
  · rfl
  · by_cases hmem : st.moved_files.any (fun p => p.1 == r.hash) = true
    · rw [reorgStep_of_mem_map move st r hmem]
    · have hmem2 : st.moved_files.any (fun p => p.1 == r.hash) = false := by
        cases hb : st.moved_files.any (fun p => p.1 == r.hash) with
        | false => rfl
        | true => exact absurd hb hmem
      cases hbase : base_dir_for r.path with
      | none => rw [reorgStep_of_unrecognized move st r hbase]
      | some base =>
        rw [reorgStep_eq_fail move st r base hmem2 hbase (hfail base hbase)]

/-- Witness for C8 at a concrete entry whose move fails. -/
theorem move_failure_skips_entry_witness :
    reorgRun demoFailMove (demoRow2 :: demoRecs) initialReorgState
      = reorgRun demoFailMove demoRecs
          (reorgStep demoFailMove initialReorgState demoRow2) ∧
    (reorgStep demoFailMove initialReorgState demoRow2).moved_files
      = initialReorgState.moved_files :=
  move_failure_skips_entry demoFailMove initialReorgState demoRow2 demoRecs
    (fun _ _ => rfl)

/-- C10: the relocated-map is extended only by a successful move.  An entry
with an unrecognized extension leaves the whole state unchanged; an entry
whose move fails leaves the map unchanged (so a later row with the same
hash is still eligible); and on a successful move of a map-absent hash the
map gains exactly that hash with its destination. -/
theorem moved_map_records_only_success (move : String → String → Bool)
    (st : ReorgState) (r : Row) :
    (base_dir_for r.path = none → reorgStep move st r = st) ∧
    (∀ base, base_dir_for r.path = some base →
      move r.path (destPath base r) = false →
      (reorgStep move st r).moved_files = st.moved_files) ∧
    (∀ base, base_dir_for r.path = some base →
      st.moved_files.any (fun p => p.1 == r.hash) = false →
      move r.path (destPath base r) = true →
      (reorgStep move st r).moved_files
        = st.moved_files ++ [(r.hash, destPath base r)]) := by
  refine ⟨?_, ?_, ?_⟩
  · intro hbase
    exact reorgStep_of_unrecognized move st r hbase
  · intro base hbase hmv
    by_cases hmem : st.moved_files.any (fun p => p.1 == r.hash) = true
    · rw [reorgStep_of_mem_map move st r hmem]
    · have hmem2 : st.moved_files.any (fun p => p.1 == r.hash) = false := by
        cases hb : st.moved_files.any (fun p => p.1 == r.hash) with
        | false => rfl
        | true => exact absurd hb hmem
      rw [reorgStep_eq_fail move st r base hmem2 hbase hmv]
  · intro base hbase hmem hmv
    rw [reorgStep_eq_success move st r base hmem hbase hmv]

/-- Witness for C10: a successful move of a map-absent hash records exactly
that hash and destination. -/
theorem moved_map_records_only_success_witness :
    (reorgStep demoMove initialReorgState demoRow2).moved_files
      = initialReorgState.moved_files
          ++ [(demoRow2.hash, destPath BASE_PHOTO_DIR demoRow2)] :=
  (moved_map_records_only_success demoMove initialReorgState demoRow2).2.2
    BASE_PHOTO_DIR (by decide) (by decide) (by decide)
